import Mathlib

/-!
Verification of the redis-commander access gate and connection registry
(`src/lib/app.js`) against its specification.

The development shallowly embeds the security-relevant logic of the source
file: `equalStrings`, `jwtSign` / `jwtVerify` together with the process-wide
`usedTokens` set, the sign-in handler and the token-checking middleware, and
the `login` / `logout` connection-registry functions.  JavaScript strings are
modelled as Lean `String` (UTF-8 encoding is injective and concatenation of
strings corresponds to concatenation of their byte buffers, so byte-buffer
comparisons are modelled by string comparisons).  JavaScript truthiness of an
optional string field (`undefined` and the empty string are falsy) is
modelled by `truthyO`.  Promises that are only ever resolved are modelled by
the `PromiseOutcome` type, keeping the rejected case representable so that
"never rejects" is a provable statement rather than a typing accident.
-/

namespace RedisCommander

/-- Embedding of `equalStrings(a, b)` (app.js lines 22-33), in the branch
where `crypto.timingSafeEqual` exists (every supported runtime).  The source
builds `Buffer.concat([bufA, bufB])` and `Buffer.concat([bufB, bufA])` and
byte-compares them with the timing-safe primitive; since UTF-8 encoding is
injective and maps string concatenation to buffer concatenation, this is
exactly the string comparison `a ++ b == b ++ a`. -/
def equalStrings (a b : String) : Bool :=
  (a ++ b) == (b ++ a)

/-- Truthiness of an optional JavaScript string value: `undefined` and the
empty string are falsy, every other string is truthy. -/
def truthyO : Option String → Bool
  | none => false
  | some s => s ≠ ""

/-- Cast `String(x)` of an optional JavaScript string: `String(undefined)`
is the string `"undefined"`. -/
def jsStr : Option String → String
  | none => "undefined"
  | some s => s

/-- Payload claims of a session token as produced by `jwt.sign` and checked
by `jwt.verify` (issuer, subject, expiry in seconds, optional `singleUse`
flag; app.js lines 37-69). -/
structure Payload where
  issuer : String
  subject : String
  exp : Option Nat
  singleUse : Bool
deriving DecidableEq, Repr

/-- A well-formed (parseable) token: its raw string identity, the payload it
decodes to, and the secret it was signed with (standing for the signature).
A malformed token string is represented by `Option.none` at use sites. -/
structure SignedToken where
  raw : String
  payload : Payload
  signedWith : String
deriving DecidableEq, Repr

/-- Checks performed by `jwt.verify(token, jwtSecret, {issuer, subject}, cb)`
(app.js lines 47-50): signature against the secret, issuer and subject
claims, and expiry (a token is rejected once the current time has reached
`exp`). -/
def claimsOk (jwtSecret : String) (st : SignedToken) (now : Nat) : Bool :=
  st.signedWith == jwtSecret &&
  st.payload.issuer == "Redis Commander" &&
  st.payload.subject == "Session Token" &&
  (match st.payload.exp with
   | some e => decide (now < e)
   | none => true)

/-- Outcome of a JavaScript promise: the executor of `jwtVerify` only ever
calls `resolve`, but the type keeps the rejected case representable. -/
inductive PromiseOutcome where
  | resolved (b : Bool)
  | rejected
deriving DecidableEq, Repr

/-- Embedding of `jwtSign(jwtSecret, data)` (app.js lines 37-43): issuer
`"Redis Commander"`, subject `"Session Token"`, `expiresIn: 60` seconds from
the signing time, and the `singleUse` flag of the payload `data`.  `raw` is
the resulting token string. -/
def jwtSign (jwtSecret : String) (raw : String) (singleUse : Bool) (now : Nat) :
    SignedToken :=
  { raw := raw
    payload :=
      { issuer := "Redis Commander"
        subject := "Session Token"
        exp := some (now + 60)
        singleUse := singleUse }
    signedWith := jwtSecret }

/-- Embedding of `jwtVerify(jwtSecret, token)` (app.js lines 45-69).  The
argument `tok` is the parse of the token string (`none` for a malformed or
unverifiable string), `used` is the process-wide `usedTokens` set (as a list
of raw token strings), and the result pairs the promise outcome with the
updated set.  Verification errors resolve `false`; a valid single-use token
already in the set resolves `false`; a fresh single-use token is added to
the set and resolves `true`; a valid ordinary token resolves `true` and
leaves the set unchanged. -/
def jwtVerify (jwtSecret : String) (tok : Option SignedToken) (now : Nat)
    (used : List String) : PromiseOutcome × List String :=
  match tok with
  | none => (.resolved false, used)
  | some st =>
    if claimsOk jwtSecret st now then
      if st.payload.singleUse then
        if used.contains st.raw then
          (.resolved false, used)
        else
          (.resolved true, st.raw :: used)
      else
        (.resolved true, used)
    else
      (.resolved false, used)

/-- Convenience predicate: the token decodes and all claims check out.
Mirrors the `err` test in the `jwt.verify` callback (app.js line 51). -/
def jwtDecodeOk (jwtSecret : String) (tok : Option SignedToken) (now : Nat) :
    Bool :=
  match tok with
  | none => false
  | some st => claimsOk jwtSecret st now

/-- Embedding of the scheduled eviction `usedTokens.delete(token)` that
`jwtVerify` arms with `setTimeout` (app.js lines 61-64); it runs at
`exp + 10` seconds, i.e. a 10 second grace period after expiry. -/
def evictSpent (raw : String) (used : List String) : List String :=
  used.erase raw

/-- Eviction time of a spent single-use token, from the `setTimeout` delay
`((decodedToken.exp * 1 + 10) * 1e3) - Date.now()` (app.js line 63). -/
def evictionTime (p : Payload) : Option Nat :=
  p.exp.map (· + 10)

/-- Configuration fields of `httpServerOptions` that the gate consults
(app.js lines 152, 203): configured admin username, plaintext password and
bcrypt password hash, each possibly absent. -/
structure HttpOptions where
  username : Option String
  password : Option String
  passwordHash : Option String
deriving DecidableEq, Repr

/-- An administrative principal is configured when the condition
`!httpServerOptions.username || !(httpServerOptions.passwordHash || httpServerOptions.password)`
(app.js lines 152 and 203) is false: the username is truthy and at least one
of password hash or plaintext password is truthy. -/
def principalConfigured (o : HttpOptions) : Bool :=
  truthyO o.username && (truthyO o.passwordHash || truthyO o.password)

/-- Embedding of JavaScript `s.split(/\s+/)`: pieces of `s` between maximal
runs of whitespace, keeping an empty piece at the start or end when the
string begins or ends with whitespace, and yielding `[""]` on the empty
string. -/
def jsSplitWs (s : String) : List String :=
  let step := fun (st : List String × String × Bool) (c : Char) =>
    let (acc, cur, inWs) := st
    if c.isWhitespace then
      if inWs then (acc, cur, true) else (acc ++ [cur], "", true)
    else
      (acc, cur.push c, false)
  let r := s.toList.foldl step ([], "", false)
  r.1 ++ [r.2.1]

/-- Case-insensitive full match `/^Bearer$/i.test(s)` (app.js lines 181 and
213): the string, lower-cased character by character, is the word
`"bearer"`. -/
def isBearerWord (s : String) : Bool :=
  String.mk (s.data.map Char.toLower) == "bearer"

/-- Fields of an inbound request that the token-checking middleware reads
(app.js lines 206-216): the `redisCommanderQueryToken` body field, the query
parameter of the same name, and the raw `Authorization` header. -/
structure Request where
  bodyQueryToken : Option String
  queryQueryToken : Option String
  authorizationHeader : Option String
deriving DecidableEq, Repr

/-- Token extraction of the middleware (app.js lines 206-216): the truthy
body field wins, then the truthy query parameter, then the word following a
`Bearer` Authorization scheme.  The empty string stands for the untouched
`let token;` (undefined), which is falsy exactly like an extracted empty
string. -/
def extractToken (req : Request) : String :=
  if truthyO req.bodyQueryToken then
    req.bodyQueryToken.getD ""
  else if truthyO req.queryQueryToken then
    req.queryQueryToken.getD ""
  else
    let authorization := jsSplitWs (req.authorizationHeader.getD "")
    if isBearerWord (authorization.headD "") then
      (authorization.get? 1).getD ""
    else
      ""

/-- Outcome of the gate middleware for one request: pass to the next
handler, reply 401 `Unauthorized - Missing Token`, reply 401
`Unauthorized - Token Invalid or Expired`, or hang on an unhandled promise
rejection (the `.then` chain at app.js lines 222-230 installs no rejection
handler). -/
inductive GateOutcome where
  | admitted
  | missingToken
  | invalidToken
  | unhandledRejection
deriving DecidableEq, Repr

/-- Embedding of the token-checking middleware (app.js lines 202-231).
`parse` maps a token string to its parse result (`none` when malformed),
standing for the decoding step inside `jwt.verify`.  When no principal is
configured the request is admitted without any token check; otherwise a
falsy extracted token yields the missing-token reply without calling
`jwtVerify`, and an extracted token is verified, admitting the request on
success and replying invalid-token on failure. -/
def gate (parse : String → Option SignedToken) (jwtSecret : String)
    (opts : HttpOptions) (req : Request) (now : Nat) (used : List String) :
    GateOutcome × List String :=
  if principalConfigured opts then
    let token := extractToken req
    if token == "" then
      (.missingToken, used)
    else
      match jwtVerify jwtSecret (parse token) now used with
      | (.resolved true, u) => (.admitted, u)
      | (.resolved false, u) => (.invalidToken, u)
      | (.rejected, u) => (.unhandledRejection, u)
  else
    (.admitted, used)

/-- Credential fields of a sign-in request body (app.js line 156). -/
structure SigninBody where
  username : Option String
  password : Option String
deriving DecidableEq, Repr

/-- Embedding of the `success` computation of the sign-in handler (app.js
lines 150-185), the function the specification calls `authenticate`.  With
no principal configured the result is true.  With a truthy supplied username
or password, `validUser` is equality of `String(req.body.username)` with
`String(httpServerOptions.username)` and `validPass` is the bcrypt
comparison against a configured hash (modelled by the external predicate
`bcryptCompare`, whose resolved value the promise chain flattens into
`success`) or else `equalStrings` against the configured plaintext password;
the result is their conjunction.  Otherwise a `Bearer` Authorization header
is verified as a token, and anything else yields false. -/
def signinSuccess (bcryptCompare : String → String → Bool)
    (parse : String → Option SignedToken) (jwtSecret : String)
    (opts : HttpOptions) (body : SigninBody)
    (authorizationHeader : Option String) (now : Nat) (used : List String) :
    PromiseOutcome × List String :=
  if principalConfigured opts then
    if truthyO body.username || truthyO body.password then
      let validUser := jsStr body.username == jsStr opts.username
      let validPass :=
        if truthyO opts.passwordHash then
          bcryptCompare (jsStr body.password) (jsStr opts.passwordHash)
        else
          equalStrings (jsStr body.password) (jsStr opts.password)
      (.resolved (validUser && validPass), used)
    else
      let authorization := jsSplitWs (authorizationHeader.getD "")
      if isBearerWord (authorization.headD "") then
        jwtVerify jwtSecret (parse ((authorization.get? 1).getD "")) now used
      else
        (.resolved false, used)
  else
    (.resolved true, used)

/-- A connection handle in `redisConnections`: display label plus the
client options compared by `logout` (app.js line 240). -/
structure Conn where
  label : String
  host : String
  port : Nat
  db : Nat
deriving DecidableEq, Repr

/-- Match condition of the `logout` scan (app.js line 240):
`instance.options.host == hostname && instance.options.port == port && instance.options.db == db`. -/
def connMatches (c : Conn) (hostname : String) (port db : Nat) : Bool :=
  c.host == hostname && c.port == port && c.db == db

/-- Removal of the first matching element, the effect of the
`forEach` / `splice` loop of `logout` (app.js lines 238-245): the
`notRemoved` flag makes every iteration after the first match a no-op, so
the loop removes exactly the first handle satisfying `connMatches` and
returns it (the element on which `quit()` is called) with the remaining
list. -/
def removeFirstConn (hostname : String) (port db : Nat) :
    List Conn → Option (Conn × List Conn)
  | [] => none
  | c :: rest =>
    if connMatches c hostname port db then
      some (c, rest)
    else
      match removeFirstConn hostname port db rest with
      | none => none
      | some (x, l) => some (x, c :: l)

/-- Result of one `logout` call: whether the callback got an error, the
handles whose transport was released via `quit()`, and the resulting
collection. -/
structure LogoutResult where
  err : Bool
  quitted : List Conn
  conns : List Conn
deriving DecidableEq, Repr

/-- Embedding of `logout(hostname, port, db, callback)` (app.js lines
237-251): remove the first matching handle and quit it, reporting success,
or report a could-not-remove error with the collection untouched. -/
def logout (conns : List Conn) (hostname : String) (port db : Nat) :
    LogoutResult :=
  match removeFirstConn hostname port db conns with
  | none => { err := true, quitted := [], conns := conns }
  | some (c, rest) => { err := false, quitted := [c], conns := rest }

/-- Transport events that can reach one `login` call (app.js lines
253-315): a client `error` event, the client `end` event, completion of the
`client.auth` command (password case) with an optional error, and a client
`connect` event whose `selectDatabase` handler runs `client.select` with
the given completion result. -/
inductive LoginEv where
  | transportError (e : String)
  | connClosed
  | authResult (err : Option String)
  | connected (selectErr : Option String)
deriving DecidableEq, Repr

/-- State of one `login` call: whether the `connect` handler is registered,
whether the `auth` completion is still outstanding, whether the client was
shut down by `quit()` / `disconnect()` (after which it emits no further
events), whether `callback` is still non-null, the log of callback
invocations (each carrying an optional error), the `isPushed` flag, and the
current `redisConnections` collection. -/
structure LoginState where
  connectArmed : Bool
  authPending : Bool
  disconnected : Bool
  callbackLive : Bool
  calls : List (Option String)
  isPushed : Bool
  conns : List Conn
deriving DecidableEq, Repr

/-- Embedding of `onceCallback(err)` (app.js lines 254-261): invoke the
callback and null it out if it is still set, otherwise do nothing. -/
def onceCallback (err : Option String) (s : LoginState) : LoginState :=
  if s.callbackLive then
    { s with callbackLive := false, calls := s.calls ++ [err] }
  else
    s

/-- One transport event processed by the handlers that `login` installs
(app.js lines 273-314).  A shut-down client delivers nothing.  An `error`
event quits and disconnects the client when `isPushed` is false, then calls
`onceCallback(err)`.  An `end` event is logged only.  An `auth` completion
error calls `onceCallback(err)`; on success the `connect` handler is
registered.  A `connect` event with the handler registered runs
`selectDatabase`: a select error calls `onceCallback(err)`, success pushes
the client onto the collection, sets `isPushed` and calls `onceCallback()`.
Completions of commands that were never issued do not occur and leave the
state unchanged. -/
def loginStep (client : Conn) (s : LoginState) (ev : LoginEv) : LoginState :=
  if s.disconnected then s else
  match ev with
  | .transportError e =>
    let s1 := if s.isPushed then s else { s with disconnected := true }
    onceCallback (some e) s1
  | .connClosed => s
  | .authResult err =>
    if s.authPending then
      let s1 := { s with authPending := false }
      match err with
      | some e => onceCallback (some e) s1
      | none => { s1 with connectArmed := true }
    else s
  | .connected selectErr =>
    if s.connectArmed then
      match selectErr with
      | some e => onceCallback (some e) s
      | none =>
        onceCallback none
          { s with conns := s.conns ++ [client], isPushed := true }
    else s

/-- Initial state of a `login` call (app.js lines 264-295): with a truthy
password `client.auth` is issued and the `connect` handler is only
registered by its success continuation; without a password the `connect`
handler is registered immediately. -/
def loginInit (hasPassword : Bool) (conns : List Conn) : LoginState :=
  { connectArmed := !hasPassword
    authPending := hasPassword
    disconnected := false
    callbackLive := true
    calls := []
    isPushed := false
    conns := conns }

/-- State of a `login` call after the client delivered a given trace of
transport events, in order. -/
def loginRun (client : Conn) (hasPassword : Bool) (conns : List Conn)
    (trace : List LoginEv) : LoginState :=
  trace.foldl (loginStep client) (loginInit hasPassword conns)

/-- Invariant: the callback log never exceeds one entry, and a still-live
callback means no entry yet.  Captures the `onceCallback` at-most-once
guard. -/
def AtMostOnce (s : LoginState) : Prop :=
  s.calls.length ≤ 1 ∧ (s.callbackLive = true → s.calls = [])

/-- Invariant: the collection is untouched, nothing was pushed, and every
callback invocation so far carried an error. -/
def NoPush (conns0 : List Conn) (s : LoginState) : Prop :=
  s.conns = conns0 ∧ s.isPushed = false ∧ ∀ x ∈ s.calls, x ≠ none

/-- Invariant after a failed `auth` step: the `connect` handler was never
registered, the auth completion is consumed, the callback fired exactly
once with the auth error, and the collection is untouched. -/
def DeadAfterAuthErr (e : String) (conns0 : List Conn) (s : LoginState) :
    Prop :=
  s.connectArmed = false ∧ s.authPending = false ∧ s.callbackLive = false ∧
  s.calls = [some e] ∧ s.isPushed = false ∧ s.conns = conns0

/-- Invariant after a failed database select: the callback fired exactly
once with the select error and the collection is untouched (the `connect`
handler may still be registered). -/
def DeadAfterSelectErr (e : String) (conns0 : List Conn) (s : LoginState) :
    Prop :=
  s.callbackLive = false ∧ s.calls = [some e] ∧ s.isPushed = false ∧
  s.conns = conns0

theorem equalStrings_eq_true_iff (a b : String) :
    equalStrings a b = true ↔ a ++ b = b ++ a := by
  simp [equalStrings]

theorem append_eq_append_iff_of_length_eq (a b : String)
    (h : a.length = b.length) : a ++ b = b ++ a ↔ a = b := by
  constructor
  · intro hab
    have hd : a.data ++ b.data = b.data ++ a.data := by
      have := congrArg String.data hab
      simpa [String.data_append] using this
    have hl : a.data.length = b.data.length := h
    exact String.ext (List.append_inj hd hl).1
  · intro hab
    rw [hab]

theorem equalStrings_eq_true_iff_of_length_eq (a b : String)
    (h : a.length = b.length) : equalStrings a b = true ↔ a = b := by
  rw [equalStrings_eq_true_iff, append_eq_append_iff_of_length_eq a b h]

theorem removeFirstConn_eq_none (hostname : String) (port db : Nat)
    (conns : List Conn)
    (h : ∀ c ∈ conns, connMatches c hostname port db = false) :
    removeFirstConn hostname port db conns = none := by
  induction conns with
  | nil => rfl
  | cons c rest ih =>
    have hc := h c (by simp)
    have hr := ih (fun x hx => h x (by simp [hx]))
    simp [removeFirstConn, hc, hr]

theorem removeFirstConn_eq_some (hostname : String) (port db : Nat)
    (l1 : List Conn) (c : Conn) (l2 : List Conn)
    (h1 : ∀ x ∈ l1, connMatches x hostname port db = false)
    (hc : connMatches c hostname port db = true) :
    removeFirstConn hostname port db (l1 ++ c :: l2) = some (c, l1 ++ l2) := by
  induction l1 with
  | nil => simp [removeFirstConn, hc]
  | cons x rest ih =>
    have hx := h1 x (by simp)
    have hr := ih (fun y hy => h1 y (by simp [hy]))
    simp [removeFirstConn, hx, hr]

theorem loginStep_of_disconnected (client : Conn) (s : LoginState)
    (ev : LoginEv) (h : s.disconnected = true) : loginStep client s ev = s := by
  simp [loginStep, h]

theorem foldl_loginStep_of_disconnected (client : Conn) (s : LoginState)
    (trace : List LoginEv) (h : s.disconnected = true) :
    trace.foldl (loginStep client) s = s := by
  induction trace with
  | nil => rfl
  | cons ev rest ih =>
    simpa [List.foldl, loginStep_of_disconnected client s ev h] using ih

theorem foldl_loginStep_invariant (client : Conn) (P : LoginState → Prop)
    (trace : List LoginEv) (s : LoginState)
    (hstep : ∀ s2 ev, ev ∈ trace → P s2 → P (loginStep client s2 ev))
    (hs : P s) : P (trace.foldl (loginStep client) s) := by
  induction trace generalizing s with
  | nil => exact hs
  | cons ev rest ih =>
    exact ih (loginStep client s ev)
      (fun s2 e he h2 => hstep s2 e (by simp [he]) h2)
      (hstep s ev (by simp) hs)

theorem atMostOnce_congr (s s2 : LoginState) (hc : s2.calls = s.calls)
    (hl : s2.callbackLive = s.callbackLive) (h : AtMostOnce s) :
    AtMostOnce s2 := by
  unfold AtMostOnce at *
  rw [hc, hl]
  exact h

theorem atMostOnce_onceCallback (err : Option String) (s : LoginState)
    (h : AtMostOnce s) : AtMostOnce (onceCallback err s) := by
  unfold AtMostOnce onceCallback at *
  by_cases hl : s.callbackLive = true
  · simp [hl, h.2 hl]
  · simp [hl] at *
    exact h

theorem atMostOnce_step (client : Conn) (s : LoginState) (ev : LoginEv)
    (h : AtMostOnce s) : AtMostOnce (loginStep client s ev) := by
  unfold loginStep
  by_cases hd : s.disconnected = true
  · simpa [hd] using h
  · simp only [hd, if_false, Bool.not_eq_true] at *
    cases ev with
    | transportError e =>
      simp only []
      by_cases hp : s.isPushed = true
      · simpa [hp] using atMostOnce_onceCallback (some e) s h
      · simp only [hp, if_false, Bool.not_eq_true] at *
        exact atMostOnce_onceCallback (some e) _ ⟨h.1, h.2⟩
    | connClosed => simpa using h
    | authResult err =>
      by_cases hp : s.authPending = true
      · cases err with
        | some e =>
          simp only [hp, if_true]
          exact atMostOnce_onceCallback (some e) _
            (atMostOnce_congr s _ rfl rfl h)
        | none =>
          simp only [hp, if_true]
          exact atMostOnce_congr s _ rfl rfl h
      · simpa [hp] using h
    | connected selectErr =>
      by_cases ha : s.connectArmed = true
      · cases selectErr with
        | some e =>
          simp only [ha, if_true]
          exact atMostOnce_onceCallback (some e) s h
        | none =>
          simp only [ha, if_true]
          exact atMostOnce_onceCallback none _
            (atMostOnce_congr s _ rfl rfl h)
      · simpa [ha] using h

theorem noPush_congr (conns0 : List Conn) (s s2 : LoginState)
    (hc : s2.conns = s.conns) (hp : s2.isPushed = s.isPushed)
    (hl : s2.calls = s.calls) (h : NoPush conns0 s) : NoPush conns0 s2 := by
  unfold NoPush at *
  rw [hc, hp, hl]
  exact h

theorem noPush_onceCallback_err (e : String) (s : LoginState)
    (conns0 : List Conn) (h : NoPush conns0 s) :
    NoPush conns0 (onceCallback (some e) s) := by
  unfold NoPush onceCallback at *
  by_cases hl : s.callbackLive = true
  · simp only [hl, if_true]
    refine ⟨h.1, h.2.1, ?_⟩
    intro x hx
    rcases List.mem_append.1 hx with hx1 | hx2
    · exact h.2.2 x hx1
    · simp at hx2
      simp [hx2]
  · simp only [hl, if_false]
    exact h

theorem noPush_step (client : Conn) (s : LoginState) (ev : LoginEv)
    (conns0 : List Conn) (hev : ev ≠ .connected none) (h : NoPush conns0 s) :
    NoPush conns0 (loginStep client s ev) := by
  unfold loginStep
  by_cases hd : s.disconnected = true
  · simpa [hd] using h
  · simp only [hd, if_false, Bool.not_eq_true] at *
    cases ev with
    | transportError e =>
      by_cases hp : s.isPushed = true
      · simp only [hp, if_true]
        exact noPush_onceCallback_err e s conns0 h
      · rw [if_neg hp]
        exact noPush_onceCallback_err e _ conns0 ⟨h.1, h.2.1, h.2.2⟩
    | connClosed => simpa using h
    | authResult err =>
      by_cases hp : s.authPending = true
      · cases err with
        | some e =>
          simp only [hp, if_true]
          exact noPush_onceCallback_err e _ conns0
            (noPush_congr conns0 s _ rfl rfl rfl h)
        | none =>
          simp only [hp, if_true]
          exact noPush_congr conns0 s _ rfl rfl rfl h
      · simpa [hp] using h
    | connected selectErr =>
      by_cases ha : s.connectArmed = true
      · cases selectErr with
        | some e =>
          simp only [ha, if_true]
          exact noPush_onceCallback_err e s conns0 h
        | none => exact absurd rfl hev
      · simpa [ha] using h

theorem deadAfterAuthErr_step (client : Conn) (s : LoginState) (ev : LoginEv)
    (e : String) (conns0 : List Conn) (h : DeadAfterAuthErr e conns0 s) :
    DeadAfterAuthErr e conns0 (loginStep client s ev) := by
  obtain ⟨h1, h2, h3, h4, h5, h6⟩ := h
  unfold loginStep
  by_cases hd : s.disconnected = true
  · simpa [hd] using ⟨h1, h2, h3, h4, h5, h6⟩
  · simp only [hd, if_false, Bool.not_eq_true] at *
    cases ev with
    | transportError e2 =>
      simp only [h5, if_false, Bool.false_eq_true]
      unfold onceCallback DeadAfterAuthErr
      simp [h3, h1, h2, h4, h5, h6]
    | connClosed => exact ⟨h1, h2, h3, h4, h5, h6⟩
    | authResult err => simp [h2, DeadAfterAuthErr, h1, h3, h4, h5, h6]
    | connected selectErr => simp [h1, DeadAfterAuthErr, h2, h3, h4, h5, h6]

theorem deadAfterSelectErr_step (client : Conn) (s : LoginState)
    (ev : LoginEv) (e : String) (conns0 : List Conn)
    (hev : ev ≠ .connected none) (h : DeadAfterSelectErr e conns0 s) :
    DeadAfterSelectErr e conns0 (loginStep client s ev) := by
  obtain ⟨h1, h2, h3, h4⟩ := h
  unfold loginStep
  by_cases hd : s.disconnected = true
  · simpa [hd] using ⟨h1, h2, h3, h4⟩
  · simp only [hd, if_false, Bool.not_eq_true] at *
    cases ev with
    | transportError e2 =>
      simp only [h3, if_false, Bool.false_eq_true]
      unfold onceCallback DeadAfterSelectErr
      simp [h1, h2, h3, h4]
    | connClosed => exact ⟨h1, h2, h3, h4⟩
    | authResult err =>
      by_cases hp : s.authPending = true
      · cases err with
        | some e2 =>
          simp only [hp, if_true]
          unfold onceCallback DeadAfterSelectErr
          simp [h1, h2, h3, h4]
        | none =>
          simp only [hp, if_true]
          exact ⟨h1, h2, h3, h4⟩
      · simpa [hp] using ⟨h1, h2, h3, h4⟩
    | connected selectErr =>
      by_cases ha : s.connectArmed = true
      · cases selectErr with
        | some e2 =>
          simp only [ha, if_true]
          unfold onceCallback DeadAfterSelectErr
          simp [h1, h2, h3, h4]
        | none => exact absurd rfl hev
      · simpa [ha] using ⟨h1, h2, h3, h4⟩

/-- C1, counterexample: `equalStrings "a" "aa"` returns true although the
two strings differ, because `"a" ++ "aa"` and `"aa" ++ "a"` are the same
string `"aaa"`; the double-concatenation comparison does not decide
equality for operands of different lengths. -/
theorem C1_counterexample :
    equalStrings "a" "aa" = true ∧ ("a" : String) ≠ "aa" := by
  decide

/-- C1 (amended): `equalStrings a b` returns true exactly when the
concatenations `a ++ b` and `b ++ a` coincide (equivalently, when `a` and
`b` are powers of a common word); for operands of equal length this is
exactly equality of `a` and `b`, but for different lengths it can return
true on distinct strings. -/
theorem C1_equalStrings_amended (a b : String) :
    (equalStrings a b = true ↔ a ++ b = b ++ a) ∧
    (a.length = b.length → (equalStrings a b = true ↔ a = b)) :=
  ⟨equalStrings_eq_true_iff a b,
   fun h => equalStrings_eq_true_iff_of_length_eq a b h⟩

/-- C1, witness: the amended statement evaluated on equal-length operands
`"ab"` and `"cd"`. -/
theorem C1_witness : equalStrings "ab" "cd" = false := by
  have h := (C1_equalStrings_amended "ab" "cd").2 (by decide)
  cases hc : equalStrings "ab" "cd" with
  | false => rfl
  | true => exact absurd (h.mp hc) (by decide)

/-- C2: a validly signed, unexpired single-use token not yet in the spent
set verifies true (and is recorded); any later verification of the same
token string, while the string is in the spent set, returns false and
leaves the set unchanged, so before the scheduled eviction every
subsequent verification of that token fails. -/
theorem C2_singleUse_replay (jwtSecret : String) (st : SignedToken)
    (now : Nat) (used : List String)
    (hs : st.payload.singleUse = true)
    (hc : claimsOk jwtSecret st now = true)
    (hu : used.contains st.raw = false) :
    jwtVerify jwtSecret (some st) now used
      = (.resolved true, st.raw :: used) ∧
    ∀ now2 u, u.contains st.raw = true →
      jwtVerify jwtSecret (some st) now2 u = (.resolved false, u) := by
  constructor
  · have hu2 : st.raw ∉ used := by simpa using hu
    simp [jwtVerify, hc, hs, hu2]
  · intro now2 u hmem
    have hm2 : st.raw ∈ u := by simpa using hmem
    by_cases h2 : claimsOk jwtSecret st now2 = true
    · simp [jwtVerify, h2, hs, hm2]
    · simp [jwtVerify, h2]

/-- C2, witness: a concrete single-use token verifies true on the first
call and false on the second. -/
theorem C2_witness :
    jwtVerify "s" (some (jwtSign "s" "tok" true 0)) 0 []
      = (.resolved true, ["tok"]) ∧
    jwtVerify "s" (some (jwtSign "s" "tok" true 0)) 0 ["tok"]
      = (.resolved false, ["tok"]) := by
  have h := C2_singleUse_replay "s" (jwtSign "s" "tok" true 0) 0 []
    (by decide) (by decide) (by decide)
  exact ⟨h.1, h.2 0 ["tok"] (by decide)⟩

/-- C3, counterexample: with configured username `"admin"` and plaintext
password `"aa"`, the supplied pair `("admin", "a")` authenticates although
the password is wrong, because `equalStrings "a" "aa"` is true. -/
theorem C3_counterexample :
    (signinSuccess (fun _ _ => false) (fun _ => none) "s"
      { username := some "admin", password := some "aa", passwordHash := none }
      { username := some "admin", password := some "a" } none 0 []).1
      = .resolved true ∧ ("a" : String) ≠ "aa" := by
  decide

/-- C3 (amended): with a username and a plaintext password configured and a
username or password supplied, `authenticate` returns true iff the supplied
username equals the configured username and the supplied and configured
passwords commute under concatenation; when the supplied password has the
same length as the configured one this is exactly password equality, but a
wrong password of a different length can be accepted. -/
theorem C3_signin_amended (bc : String → String → Bool)
    (parse : String → Option SignedToken) (jwtSecret : String)
    (opts : HttpOptions) (body : SigninBody) (hdr : Option String)
    (now : Nat) (used : List String)
    (hu : truthyO opts.username = true)
    (hh : truthyO opts.passwordHash = false)
    (hpw : truthyO opts.password = true)
    (hb : (truthyO body.username || truthyO body.password) = true) :
    ((signinSuccess bc parse jwtSecret opts body hdr now used).1
        = .resolved true ↔
      (jsStr body.username = jsStr opts.username ∧
       jsStr body.password ++ jsStr opts.password
         = jsStr opts.password ++ jsStr body.password)) ∧
    ((jsStr body.password).length = (jsStr opts.password).length →
      ((signinSuccess bc parse jwtSecret opts body hdr now used).1
          = .resolved true ↔
        (jsStr body.username = jsStr opts.username ∧
         jsStr body.password = jsStr opts.password))) := by
  have hp : principalConfigured opts = true := by
    simp [principalConfigured, hu, hpw]
  have hval : (signinSuccess bc parse jwtSecret opts body hdr now used).1
      = .resolved ((jsStr body.username == jsStr opts.username)
          && equalStrings (jsStr body.password) (jsStr opts.password)) := by
    simp [signinSuccess, hp, hb, hh]
  constructor
  · rw [hval]
    simp only [PromiseOutcome.resolved.injEq, Bool.and_eq_true, beq_iff_eq,
      equalStrings_eq_true_iff]
  · intro hlen
    rw [hval]
    simp only [PromiseOutcome.resolved.injEq, Bool.and_eq_true, beq_iff_eq,
      equalStrings_eq_true_iff_of_length_eq _ _ hlen]

/-- C3, witness: the amended statement evaluated on the specification
scenario with configured pair `("admin", "secret")` and supplied pair
`("admin", "wrong1")` (equal password lengths), which is rejected. -/
theorem C3_witness :
    (signinSuccess (fun _ _ => false) (fun _ => none) "s"
      { username := some "admin", password := some "secret",
        passwordHash := none }
      { username := some "admin", password := some "wrong1" } none 0 []).1
      ≠ .resolved true := by
  have h := (C3_signin_amended (fun _ _ => false) (fun _ => none) "s"
    { username := some "admin", password := some "secret",
      passwordHash := none }
    { username := some "admin", password := some "wrong1" } none 0 []
    (by decide) (by decide) (by decide) (by decide)).2 (by decide)
  intro hc
  exact absurd (h.mp hc).2 (by decide)

/-- C4: `logout` with no matching handle reports an error and leaves the
collection unchanged with no transport released; when the collection splits
as `l1 ++ c :: l2` with no match in `l1` and `c` matching, exactly that
first match is removed and quit, and the callback reports success. -/
theorem C4_logout (conns : List Conn) (hostname : String) (port db : Nat) :
    ((∀ c ∈ conns, connMatches c hostname port db = false) →
      logout conns hostname port db
        = { err := true, quitted := [], conns := conns }) ∧
    (∀ l1 c l2, conns = l1 ++ c :: l2 →
      (∀ x ∈ l1, connMatches x hostname port db = false) →
      connMatches c hostname port db = true →
      logout conns hostname port db
        = { err := false, quitted := [c], conns := l1 ++ l2 }) := by
  constructor
  · intro h
    simp [logout, removeFirstConn_eq_none hostname port db conns h]
  · intro l1 c l2 hsplit h1 hc
    subst hsplit
    simp [logout, removeFirstConn_eq_some hostname port db l1 c l2 h1 hc]

/-- C4, witness: with two handles carrying identical host, port and
database index, `logout` removes exactly the first; with no match it
errors and mutates nothing. -/
theorem C4_witness :
    logout [⟨"a", "h", 1, 0⟩, ⟨"b", "h", 1, 0⟩] "h" 1 0
      = { err := false, quitted := [⟨"a", "h", 1, 0⟩],
          conns := [⟨"b", "h", 1, 0⟩] } ∧
    logout [⟨"a", "h", 1, 0⟩] "x" 1 0
      = { err := true, quitted := [], conns := [⟨"a", "h", 1, 0⟩] } := by
  have h := C4_logout [⟨"a", "h", 1, 0⟩, ⟨"b", "h", 1, 0⟩] "h" 1 0
  have h2 := C4_logout [⟨"a", "h", 1, 0⟩] "x" 1 0
  exact ⟨h.2 [] ⟨"a", "h", 1, 0⟩ [⟨"b", "h", 1, 0⟩] rfl (by decide) (by decide),
         h2.1 (by decide)⟩

/-- C5, counterexample: a `login` whose database select fails (callback
fired once with the error) can still add a handle to the collection,
because the `connect` handler stays registered and a transport reconnect
reruns `selectDatabase`, whose success pushes the client.  The trace
select-error, connection-closed, reconnect-with-successful-select ends with
the collection grown from `[]` to one handle while the callback log shows
the single error invocation. -/
theorem C5_counterexample :
    (loginRun ⟨"c", "h", 1, 0⟩ false []
      [.connected (some "ERR"), .connClosed, .connected none]).calls
      = [some "ERR"] ∧
    (loginRun ⟨"c", "h", 1, 0⟩ false []
      [.connected (some "ERR"), .connClosed, .connected none]).conns
      = [⟨"c", "h", 1, 0⟩] ∧
    ([⟨"c", "h", 1, 0⟩] : List Conn) ≠ [] := by
  decide

/-- C5 (amended): over every event trace the callback is invoked at most
once, and it is never invoked a second time by a later transport event.
If the trace contains no successful connect-and-select completion the
collection is unchanged and every callback invocation carries an error.
When the first event is a transport error the client is quit and
disconnected, so the callback fires exactly once with that error and the
collection stays unchanged forever.  When the password-case auth step
fails first, the connect handler is never registered, so the callback
fires exactly once with the auth error and the collection stays unchanged.
When the select step fails first and no later reconnect completes a
successful select, the callback fires exactly once with the select error
and the collection stays unchanged; a later successful reconnect-and-select
would add the handle without invoking the callback again. -/
theorem C5_login_amended (client : Conn) (hasPassword : Bool)
    (conns0 : List Conn) (trace : List LoginEv) :
    (loginRun client hasPassword conns0 trace).calls.length ≤ 1 ∧
    ((LoginEv.connected none) ∉ trace →
      (loginRun client hasPassword conns0 trace).conns = conns0 ∧
      ∀ x ∈ (loginRun client hasPassword conns0 trace).calls, x ≠ none) ∧
    (∀ e rest, trace = .transportError e :: rest →
      (loginRun client hasPassword conns0 trace).calls = [some e] ∧
      (loginRun client hasPassword conns0 trace).conns = conns0) ∧
    (∀ e rest, hasPassword = true → trace = .authResult (some e) :: rest →
      (loginRun client hasPassword conns0 trace).calls = [some e] ∧
      (loginRun client hasPassword conns0 trace).conns = conns0) ∧
    (∀ e rest, hasPassword = false → trace = .connected (some e) :: rest →
      (LoginEv.connected none) ∉ rest →
      (loginRun client hasPassword conns0 trace).calls = [some e] ∧
      (loginRun client hasPassword conns0 trace).conns = conns0) := by
  refine ⟨?_, ?_, ?_, ?_, ?_⟩
  · have h := foldl_loginStep_invariant client AtMostOnce trace
      (loginInit hasPassword conns0)
      (fun s2 ev _ h2 => atMostOnce_step client s2 ev h2)
      ⟨by simp [loginInit], fun _ => by simp [loginInit]⟩
    exact h.1
  · intro hno
    have h := foldl_loginStep_invariant client (NoPush conns0) trace
      (loginInit hasPassword conns0)
      (fun s2 ev hev h2 =>
        noPush_step client s2 ev conns0 (fun hcon => hno (hcon ▸ hev)) h2)
      ⟨by simp [loginInit], by simp [loginInit], by simp [loginInit]⟩
    exact ⟨h.1, h.2.2⟩
  · intro e rest hsplit
    subst hsplit
    have hstate :
        loginStep client (loginInit hasPassword conns0) (.transportError e)
          = { connectArmed := !hasPassword, authPending := hasPassword,
              disconnected := true, callbackLive := false,
              calls := [some e], isPushed := false, conns := conns0 } := by
      simp [loginStep, loginInit, onceCallback]
    have hrun : loginRun client hasPassword conns0 (.transportError e :: rest)
        = { connectArmed := !hasPassword, authPending := hasPassword,
            disconnected := true, callbackLive := false,
            calls := [some e], isPushed := false, conns := conns0 } := by
      unfold loginRun
      rw [List.foldl_cons, hstate]
      exact foldl_loginStep_of_disconnected client _ rest rfl
    rw [hrun]
    exact ⟨rfl, rfl⟩
  · intro e rest hpw hsplit
    subst hsplit
    subst hpw
    have hstate :
        loginStep client (loginInit true conns0) (.authResult (some e))
          = { connectArmed := false, authPending := false,
              disconnected := false, callbackLive := false,
              calls := [some e], isPushed := false, conns := conns0 } := by
      simp [loginStep, loginInit, onceCallback]
    have h := foldl_loginStep_invariant client (DeadAfterAuthErr e conns0)
      rest (loginStep client (loginInit true conns0) (.authResult (some e)))
      (fun s2 ev _ h2 => deadAfterAuthErr_step client s2 ev e conns0 h2)
      (by rw [hstate]; exact ⟨rfl, rfl, rfl, rfl, rfl, rfl⟩)
    unfold loginRun
    rw [List.foldl_cons]
    exact ⟨h.2.2.2.1, h.2.2.2.2.2⟩
  · intro e rest hpw hsplit hno
    subst hsplit
    subst hpw
    have hstate :
        loginStep client (loginInit false conns0) (.connected (some e))
          = { connectArmed := true, authPending := false,
              disconnected := false, callbackLive := false,
              calls := [some e], isPushed := false, conns := conns0 } := by
      simp [loginStep, loginInit, onceCallback]
    have h := foldl_loginStep_invariant client (DeadAfterSelectErr e conns0)
      rest (loginStep client (loginInit false conns0) (.connected (some e)))
      (fun s2 ev hev h2 =>
        deadAfterSelectErr_step client s2 ev e conns0
          (fun hcon => hno (hcon ▸ hev)) h2)
      (by rw [hstate]; exact ⟨rfl, rfl, rfl, rfl⟩)
    unfold loginRun
    rw [List.foldl_cons]
    exact ⟨h.2.1, h.2.2.2⟩

/-- C5, witness: a password-case login whose auth step fails drives the
callback exactly once with the error and leaves the collection empty. -/
theorem C5_witness :
    (loginRun ⟨"c", "h", 1, 0⟩ true [] [.authResult (some "boom")]).calls
      = [some "boom"] ∧
    (loginRun ⟨"c", "h", 1, 0⟩ true [] [.authResult (some "boom")]).conns
      = [] := by
  have h := C5_login_amended ⟨"c", "h", 1, 0⟩ true [] [.authResult (some "boom")]
  exact h.2.2.2.1 "boom" [] rfl rfl

/-- C6: with a principal configured, the gate extracts the token from the
truthy body field first, else from the truthy query parameter, else from a
`Bearer` Authorization header; a falsy extracted token yields the
missing-token 401 with the spent set untouched and without consulting the
verifier (the outcome holds for every parse function and secret); a present
token is verified, yielding the invalid-token 401 when verification
resolves false and admission when it resolves true. -/
theorem C6_gate (parse : String → Option SignedToken) (jwtSecret : String)
    (opts : HttpOptions) (req : Request) (now : Nat) (used : List String)
    (hp : principalConfigured opts = true) :
    (truthyO req.bodyQueryToken = true →
      extractToken req = req.bodyQueryToken.getD "") ∧
    (truthyO req.bodyQueryToken = false →
      truthyO req.queryQueryToken = true →
      extractToken req = req.queryQueryToken.getD "") ∧
    (truthyO req.bodyQueryToken = false →
      truthyO req.queryQueryToken = false →
      extractToken req =
        (if isBearerWord
            ((jsSplitWs (req.authorizationHeader.getD "")).headD "") then
          ((jsSplitWs (req.authorizationHeader.getD "")).get? 1).getD ""
        else "")) ∧
    (extractToken req = "" →
      gate parse jwtSecret opts req now used = (.missingToken, used)) ∧
    (extractToken req ≠ "" →
      ((jwtVerify jwtSecret (parse (extractToken req)) now used).1
          = .resolved false →
        (gate parse jwtSecret opts req now used).1 = .invalidToken) ∧
      ((jwtVerify jwtSecret (parse (extractToken req)) now used).1
          = .resolved true →
        (gate parse jwtSecret opts req now used).1 = .admitted)) := by
  refine ⟨?_, ?_, ?_, ?_, ?_⟩
  · intro hb
    simp [extractToken, hb]
  · intro hb hq
    simp [extractToken, hb, hq]
  · intro hb hq
    simp [extractToken, hb, hq]
  · intro he
    simp [gate, hp, he]
  · intro he
    have hbe : (extractToken req == "") = false := by
      simpa using he
    constructor
    · intro hv
      rcases hj : jwtVerify jwtSecret (parse (extractToken req)) now used
        with ⟨o, u⟩
      rw [hj] at hv
      simp only at hv
      subst hv
      simp [gate, hp, hbe, hj]
    · intro hv
      rcases hj : jwtVerify jwtSecret (parse (extractToken req)) now used
        with ⟨o, u⟩
      rw [hj] at hv
      simp only at hv
      subst hv
      simp [gate, hp, hbe, hj]

/-- C6, witness: the gate rejects a tokenless request with the
missing-token 401, and token extraction prefers the body field. -/
theorem C6_witness :
    gate (fun _ => none) "s"
      { username := some "u", password := some "p", passwordHash := none }
      { bodyQueryToken := none, queryQueryToken := none,
        authorizationHeader := none } 0 []
      = (.missingToken, []) ∧
    extractToken
      { bodyQueryToken := some "tok", queryQueryToken := some "other",
        authorizationHeader := none } = "tok" := by
  have h := C6_gate (fun _ => none) "s"
    { username := some "u", password := some "p", passwordHash := none }
    { bodyQueryToken := none, queryQueryToken := none,
      authorizationHeader := none } 0 [] (by decide)
  have h2 := C6_gate (fun _ => none) "s"
    { username := some "u", password := some "p", passwordHash := none }
    { bodyQueryToken := some "tok", queryQueryToken := some "other",
      authorizationHeader := none } 0 [] (by decide)
  exact ⟨h.2.2.2.1 (by decide), h2.1 (by decide)⟩

/-- C7: an ordinary (non-single-use) token just issued by `jwtSign`
verifies true immediately with the spent set untouched, and once 60
seconds have elapsed since issuance the same token verifies false against
every secret and every spent set, because the expiry claim fails. -/
theorem C7_roundTrip (jwtSecret raw : String) (now : Nat)
    (used : List String) :
    jwtVerify jwtSecret (some (jwtSign jwtSecret raw false now)) now used
      = (.resolved true, used) ∧
    ∀ t s2 u2, now + 60 ≤ t →
      (jwtVerify s2 (some (jwtSign jwtSecret raw false now)) t u2).1
        = .resolved false := by
  constructor
  · have hc : claimsOk jwtSecret (jwtSign jwtSecret raw false now) now
        = true := by
      simp [claimsOk, jwtSign]
    have hsu : (jwtSign jwtSecret raw false now).payload.singleUse = false :=
      rfl
    simp [jwtVerify, hc, hsu]
  · intro t s2 u2 ht
    have hlt : ¬ (t < now + 60) := by omega
    have hc : claimsOk s2 (jwtSign jwtSecret raw false now) t = false := by
      simp [claimsOk, jwtSign, hlt]
    simp [jwtVerify, hc]

/-- C7, witness: a token issued at time 0 verifies at time 0 and fails at
time 60. -/
theorem C7_witness :
    jwtVerify "s" (some (jwtSign "s" "tok" false 0)) 0 []
      = (.resolved true, []) ∧
    (jwtVerify "s" (some (jwtSign "s" "tok" false 0)) 60 []).1
      = .resolved false := by
  have h := C7_roundTrip "s" "tok" 0 []
  exact ⟨h.1, h.2 60 "s" [] (by decide)⟩

/-- C8: when no principal is configured (username absent, or both password
and password hash absent), the sign-in check resolves true for every
supplied credential body, including empty strings, and the gate admits
every request without requiring a token. -/
theorem C8_authDisabled (opts : HttpOptions)
    (h : opts.username = none ∨
      (opts.password = none ∧ opts.passwordHash = none)) :
    (∀ bc parse jwtSecret body hdr now used,
      (signinSuccess bc parse jwtSecret opts body hdr now used).1
        = .resolved true) ∧
    (∀ parse jwtSecret req now used,
      (gate parse jwtSecret opts req now used).1 = .admitted) := by
  have hp : principalConfigured opts = false := by
    rcases h with h1 | ⟨h2, h3⟩ <;> simp [principalConfigured, truthyO, *]
  exact ⟨fun bc parse jwtSecret body hdr now used => by
           simp [signinSuccess, hp],
         fun parse jwtSecret req now used => by simp [gate, hp]⟩

/-- C8, witness: with nothing configured, empty supplied credentials
authenticate and a tokenless request is admitted. -/
theorem C8_witness :
    (signinSuccess (fun _ _ => false) (fun _ => none) "s"
      { username := none, password := none, passwordHash := none }
      { username := some "", password := some "" } none 0 []).1
      = .resolved true ∧
    (gate (fun _ => none) "s"
      { username := none, password := none, passwordHash := none }
      { bodyQueryToken := none, queryQueryToken := none,
        authorizationHeader := none } 0 []).1 = .admitted := by
  have h := C8_authDisabled
    { username := none, password := none, passwordHash := none }
    (Or.inl rfl)
  exact ⟨h.1 (fun _ _ => false) (fun _ => none) "s"
           { username := some "", password := some "" } none 0 [],
         h.2 (fun _ => none) "s"
           { bodyQueryToken := none, queryQueryToken := none,
             authorizationHeader := none } 0 []⟩

/-- C9: for every input (malformed token, bad signature or claims, expired,
or valid, single-use or not, any spent set), `jwtVerify` resolves to a
boolean and never rejects; and whenever decoding or claim checking fails
the resolution is false. -/
theorem C9_neverRejects (jwtSecret : String) (tok : Option SignedToken)
    (now : Nat) (used : List String) :
    (∃ b, (jwtVerify jwtSecret tok now used).1 = .resolved b) ∧
    (jwtDecodeOk jwtSecret tok now = false →
      (jwtVerify jwtSecret tok now used).1 = .resolved false) := by
  cases tok with
  | none => exact ⟨⟨false, rfl⟩, fun _ => rfl⟩
  | some st =>
    constructor
    · by_cases hc : claimsOk jwtSecret st now = true
      · by_cases hs : st.payload.singleUse = true
        · by_cases hm : st.raw ∈ used
          · exact ⟨false, by simp [jwtVerify, hc, hs, hm]⟩
          · exact ⟨true, by simp [jwtVerify, hc, hs, hm]⟩
        · exact ⟨true, by simp [jwtVerify, hc, hs]⟩
      · exact ⟨false, by simp [jwtVerify, hc]⟩
    · intro hd
      have hc : claimsOk jwtSecret st now = false := by
        simpa [jwtDecodeOk] using hd
      simp [jwtVerify, hc]

/-- C9, witness: a malformed token string resolves false rather than
rejecting. -/
theorem C9_witness :
    (∃ b, (jwtVerify "s" none 0 []).1 = .resolved b) ∧
    (jwtVerify "s" none 0 []).1 = .resolved false := by
  have h := C9_neverRejects "s" none 0 []
  exact ⟨h.1, h.2 (by decide)⟩

/-- C10: a validly signed, unexpired token without the single-use flag
verifies true with the spent set untouched, for every spent set, so
arbitrarily many repeated verifications all succeed; and for a request
presenting such a token through any extraction source (body field, query
parameter or Bearer header), the gate admits the request. -/
theorem C10_reusableToken (jwtSecret : String) (st : SignedToken)
    (now : Nat) (used : List String)
    (hs : st.payload.singleUse = false)
    (hc : claimsOk jwtSecret st now = true) :
    jwtVerify jwtSecret (some st) now used = (.resolved true, used) ∧
    ∀ (parse : String → Option SignedToken) (opts : HttpOptions)
      (req : Request),
      principalConfigured opts = true → extractToken req = st.raw →
      st.raw ≠ "" → parse st.raw = some st →
      gate parse jwtSecret opts req now used = (.admitted, used) := by
  have h1 : jwtVerify jwtSecret (some st) now used = (.resolved true, used) := by
    simp [jwtVerify, hc, hs]
  refine ⟨h1, ?_⟩
  intro parse opts req hp hex hraw hparse
  have hbe : (st.raw == "") = false := by
    simpa using hraw
  simp only [gate, hp, if_true, hex, hbe, Bool.false_eq_true, if_false,
    hparse, h1]

/-- C10, witness: a concrete reusable token presented via the body field is
verified and admitted with the spent set unchanged. -/
theorem C10_witness :
    jwtVerify "s" (some (jwtSign "s" "tok" false 0)) 0 ["tok"]
      = (.resolved true, ["tok"]) ∧
    gate (fun r => if r == "tok" then some (jwtSign "s" "tok" false 0)
        else none) "s"
      { username := some "u", password := some "p", passwordHash := none }
      { bodyQueryToken := some "tok", queryQueryToken := none,
        authorizationHeader := none } 0 ["tok"]
      = (.admitted, ["tok"]) := by
  have h := C10_reusableToken "s" (jwtSign "s" "tok" false 0) 0 ["tok"]
    (by decide) (by decide)
  exact ⟨h.1,
    h.2 (fun r => if r == "tok" then some (jwtSign "s" "tok" false 0)
          else none)
      { username := some "u", password := some "p", passwordHash := none }
      { bodyQueryToken := some "tok", queryQueryToken := none,
        authorizationHeader := none }
      (by decide) (by decide) (by decide) (by decide)⟩

end RedisCommander
